import Mathlib

/-!
# Verification of the local-mod ingestion pipeline

Shallow embedding of the ingestion pipeline of deadlock-modmanager:
the source classifier `detectSource` and the stager `finalize` of the
"Add Mods" page, together with `validateAndGet` of the metadata form.

File names, relative paths, byte contents and toast messages are
modelled concretely; filesystem paths are modelled as segment lists
(the code only ever builds paths with `join(parent, child)`).  External
host facilities (the ZIP decoder, the UUID generator, the clock, and
injected I/O failures of `mkdir`/`writeFile`) are supplied through an
environment record `IOEnv`.

String primitives used by the code (case folding, suffix tests for the
extension regexes, `split('/')`, `trim`) are given structural
definitions over the character list of the string, so that every
definition evaluates by kernel reduction on concrete inputs.
-/

/-- Byte content of a file, one natural number per byte. -/
abbrev Bytes := List Nat

/-- A filesystem path, as the sequence of segments the code joins
together with `join(parent, child)`. -/
abbrev FsPath := List String

/-- Case folding of one character, as `toLowerCase` acts on the ASCII
file names this pipeline compares. -/
def lowerChar (c : Char) : Char :=
  if 65 ≤ c.toNat ∧ c.toNat ≤ 90 then Char.ofNat (c.toNat + 32) else c

/-- `s.toLowerCase()` on ASCII strings. -/
def lowerStr (s : String) : String :=
  ⟨s.data.map lowerChar⟩

/-- `s.endsWith(suff)`: suffix test on the character sequence. -/
def strEndsWith (s suff : String) : Bool :=
  suff.data.isSuffixOf s.data

/-- The test `/\.vpk$/i.test(name)`: the name ends with `.vpk`,
case-insensitively. -/
def isVpkName (s : String) : Bool :=
  strEndsWith (lowerStr s) ".vpk"

/-- The test `/\.(zip|rar|7z)$/i.test(name)`. -/
def isArchiveName (s : String) : Bool :=
  let l := lowerStr s
  strEndsWith l ".zip" || strEndsWith l ".rar" || strEndsWith l ".7z"

/-- `rel.split('/')[0]`: the characters before the first slash. -/
def firstSegment (s : String) : String :=
  ⟨s.data.takeWhile (fun c => c ≠ '/')⟩

/-- `name.split('/').pop()`: the characters after the last slash. -/
def lastSegment (s : String) : String :=
  ⟨(s.data.reverse.takeWhile (fun c => c ≠ '/')).reverse⟩

/-- Models a DOM `File` as the code consumes it: the base `name`, the
`webkitRelativePath` (the empty string when the file did not come from a
folder drop/selection, matching the DOM default), and its byte content. -/
structure WebFile where
  name : String
  rel : String
  bytes : Bytes
  deriving DecidableEq, Repr

/-- `fileName` helper of the source: `file.webkitRelativePath || file.name`
(the empty relative path is falsy in JavaScript). -/
def fileName (f : WebFile) : String :=
  if f.rel = "" then f.name else f.rel

/-- Folder display name recovered in `detectSource`:
`rel ? rel.split('/')[0] : undefined` (the empty string is falsy). -/
def folderNameOf (f : WebFile) : Option String :=
  if f.rel = "" then none else some (firstSegment f.rel)

/-- The `DetectedSource` union type of the source. -/
inductive DetectedSource where
  | vpk (file : WebFile)
  | archive (file : WebFile)
  | folderVpk (files : List WebFile) (folderName : Option String)
  deriving DecidableEq, Repr

/-- The source classifier `detectSource`.  `files.filter(Boolean)` is the
identity here because every element of the modelled list is a real file
object, so `flat` is `files` itself. -/
def detectSource (files : List WebFile) : Option DetectedSource :=
  if files.length = 0 then none
  else
    let flat := files
    let vpkHit := flat.find? (fun f => isVpkName f.name)
    if flat.length = 1 ∧ vpkHit.isSome then
      vpkHit.map DetectedSource.vpk
    else
      let archiveHit := flat.find? (fun f => isArchiveName f.name)
      if flat.length = 1 ∧ archiveHit.isSome then
        archiveHit.map DetectedSource.archive
      else
        match flat.filter (fun f => isVpkName f.name) with
        | [] => none
        | first :: rest =>
          some (DetectedSource.folderVpk (first :: rest) (folderNameOf first))

/-- Claim C6: single-entry classification. -/
theorem c6_single_entry_classification (e : WebFile) :
    (isVpkName e.name = true →
      detectSource [e] = some (DetectedSource.vpk e)) ∧
    (isVpkName e.name = false → isArchiveName e.name = true →
      detectSource [e] = some (DetectedSource.archive e)) := by
  constructor
  · intro h
    simp [detectSource, List.find?, h]
  · intro h h'
    simp [detectSource, List.find?, h, h']

theorem c6_witness :
    (isVpkName "SkinPack.VPK" = true →
      detectSource [⟨"SkinPack.VPK", "", [1, 2]⟩] =
        some (DetectedSource.vpk ⟨"SkinPack.VPK", "", [1, 2]⟩)) ∧
    (isVpkName "bundle.Zip" = false → isArchiveName "bundle.Zip" = true →
      detectSource [⟨"bundle.Zip", "", [3]⟩] =
        some (DetectedSource.archive ⟨"bundle.Zip", "", [3]⟩)) := by
  refine ⟨fun h => ?_, fun h h' => ?_⟩
  · exact (c6_single_entry_classification ⟨"SkinPack.VPK", "", [1, 2]⟩).1 h
  · exact (c6_single_entry_classification ⟨"bundle.Zip", "", [3]⟩).2 h h'

/-- Claim C7: empty and multi-entry classification: an empty drop and a
multi-entry drop with no matching entry are unrecognized; a multi-entry
drop with at least one matching entry classifies as a folder source
holding exactly the matching subset, with the folder name recovered from
the first match's relative path when one is present. -/
theorem c7_multi_entry_classification :
    (detectSource [] = none) ∧
    (∀ es : List WebFile, 2 ≤ es.length →
      es.filter (fun f => isVpkName f.name) = [] →
      detectSource es = none) ∧
    (∀ (es : List WebFile) (first : WebFile) (rest : List WebFile),
      2 ≤ es.length →
      es.filter (fun f => isVpkName f.name) = first :: rest →
      detectSource es =
        some (DetectedSource.folderVpk (first :: rest) (folderNameOf first))) := by
  refine ⟨by simp [detectSource], ?_, ?_⟩
  · intro es hlen hfilter
    have hne : es.length ≠ 1 := by omega
    have hz : es.length ≠ 0 := by omega
    simp [detectSource, hz, hne, hfilter]
  · intro es first rest hlen hfilter
    have hne : es.length ≠ 1 := by omega
    have hz : es.length ≠ 0 := by omega
    simp [detectSource, hz, hne, hfilter]

theorem c7_witness :
    detectSource
        [⟨"readme.txt", "a/readme.txt", [0]⟩,
         ⟨"b.vpk", "a/b.vpk", [1]⟩,
         ⟨"c.vpk", "a/c.vpk", [2]⟩] =
      some (DetectedSource.folderVpk
        [⟨"b.vpk", "a/b.vpk", [1]⟩, ⟨"c.vpk", "a/c.vpk", [2]⟩]
        (some "a")) := by
  have h := (c7_multi_entry_classification.2.2)
    [⟨"readme.txt", "a/readme.txt", [0]⟩,
     ⟨"b.vpk", "a/b.vpk", [1]⟩,
     ⟨"c.vpk", "a/c.vpk", [2]⟩]
    ⟨"b.vpk", "a/b.vpk", [1]⟩ [⟨"c.vpk", "a/c.vpk", [2]⟩]
    (by decide) (by decide)
  have hfold : folderNameOf ⟨"b.vpk", "a/b.vpk", [1]⟩ = some "a" := by decide
  rw [hfold] at h
  exact h

/-- One entry of a loaded ZIP archive as JSZip presents it: its full
inner `name`, whether it is a directory entry, and its decompressed
bytes (what `entry.async('uint8array')` yields). -/
structure ZipEntry where
  name : String
  dir : Bool
  data : Bytes
  deriving DecidableEq, Repr

/-- A loaded ZIP archive; `entries` lists `Object.values(zip.files)` in
its enumeration order. -/
structure ZipArchive where
  entries : List ZipEntry
  deriving DecidableEq, Repr

/-- A preview image file attached to the metadata form. -/
structure ImageFile where
  name : String
  data : Bytes
  deriving DecidableEq, Repr

/-- The `ModMetadata` record handed over by `validateAndGet` (the
presentation-only `imageSrc` data-URI is outside the staging model). -/
structure ModMetadata where
  name : String
  author : Option String
  link : Option String
  description : Option String
  imageFile : Option ImageFile
  deriving DecidableEq, Repr

/-- The raw form values `form.getValues()` returns after the zod schema
parsed them (empty-string author/link/description already mapped to
`none` only by the later trimming, not here). -/
structure FormValues where
  name : String
  author : Option String
  description : Option String
  link : Option String
  imageFile : Option ImageFile
  deriving DecidableEq, Repr

/-- `s.trim()`: strip whitespace from both ends. -/
def trimStr (s : String) : String :=
  ⟨((s.data.dropWhile Char.isWhitespace).reverse.dropWhile Char.isWhitespace).reverse⟩

/-- `x?.trim() || undefined`: trim an optional string, mapping a blank
result to `undefined`. -/
def trimOpt (o : Option String) : Option String :=
  match o with
  | none => none
  | some s => let t := trimStr s; if t = "" then none else some t

/-- `validateAndGet` of the metadata form: `form.trigger()` (the zod
validation run, an external library call) is abstracted by the `valid`
flag; on success the form values are normalized exactly as the handler
builds its `ModMetadata` value. -/
def validateAndGet (valid : Bool) (v : FormValues) : Option ModMetadata :=
  if valid then
    some { name := trimStr v.name
           author := trimOpt v.author
           description := trimOpt v.description
           link := trimOpt v.link
           imageFile := v.imageFile }
  else none

/-- The metadata document written to `metadata.json`; `schemaVer` models
the `_schema` field.  `JSON.stringify` of this record is abstracted by
storing the document value itself as the file content. -/
structure MetadataDoc where
  id : String
  kind : String
  name : String
  author : String
  link : Option String
  description : Option String
  category : String
  createdAt : String
  preview : String
  schemaVer : Nat
  deriving DecidableEq, Repr

/-- JavaScript `x || d` on a nullable string (the empty string is falsy). -/
def strOr (o : Option String) (d : String) : String :=
  match o with
  | none => d
  | some s => if s = "" then d else s

/-- JavaScript `x || null` on a nullable string. -/
def strOrNull (o : Option String) : Option String :=
  match o with
  | none => none
  | some s => if s = "" then none else some s

/-- Content of one staged file. -/
inductive Content where
  | bytes (data : Bytes)
  | text (s : String)
  | metaDoc (m : MetadataDoc)
  deriving DecidableEq, Repr

/-- The application-local data tree touched by one staging run. -/
structure FS where
  dirs : List FsPath
  files : List (FsPath × Content)
  deriving DecidableEq, Repr

/-- `writeFile` semantics: the newest write of a path wins. -/
def FS.setFile (fs : FS) (p : FsPath) (c : Content) : FS :=
  { fs with files := (p, c) :: fs.files.filter (fun q => decide (q.1 ≠ p)) }

/-- Read back one file, `none` when the path was never written. -/
def lookupFile (fs : FS) (p : FsPath) : Option Content :=
  (fs.files.find? (fun q => decide (q.1 = p))).map Prod.snd

/-- `readDir dir` restricted to what this pipeline can create: the base
names of the files lying directly in `dir`. -/
def childNames (fs : FS) (dir : FsPath) : List String :=
  fs.files.filterMap (fun q =>
    if q.1.dropLast = dir then some (q.1.getLastD "") else none)

/-- Observable state threaded through one `finalize` run: the files and
directories written so far plus the toast notifications shown. -/
structure St where
  fs : FS
  toasts : List String
  deriving DecidableEq, Repr

/-- The state before a staging run. -/
def St.init : St := { fs := { dirs := [], files := [] }, toasts := [] }

def addToast (st : St) (msg : String) : St :=
  { st with toasts := st.toasts ++ [msg] }

/-- Host environment of one run: the application data directory, the
fresh UUID, the `toISOString()` clock reading (an ISO-8601 timestamp by
the host's contract), which `mkdir`/`writeFile` calls fail with an I/O
error, and the JSZip decoder (`none` models a rejected `loadAsync`). -/
structure IOEnv where
  baseDir : FsPath
  uuid : String
  nowISO : String
  mkdirFails : FsPath → Bool
  writeFails : FsPath → Bool
  parseZip : Bytes → Option ZipArchive

/-- Cause of an abort: a rejected filesystem promise carrying the path,
or a thrown `Error`/decoder failure carrying its message. -/
inductive Cause where
  | io (p : FsPath)
  | fail (msg : String)
  deriving DecidableEq, Repr

/-- Result of one fallible step: the value and state on success, or the
cause and the state at the moment of the throw. -/
inductive Res (α : Type) where
  | ok (a : α) (st : St)
  | err (c : Cause) (st : St)
  deriving DecidableEq, Repr

/-- Outcome of `finalize`: the early URL-flow return, the early
"No files detected." return, an uncaught rejection, or success. -/
inductive FinResult where
  | urlFlow (st : St)
  | noFiles (st : St)
  | thrown (c : Cause) (st : St)
  | ok (st : St)
  deriving DecidableEq, Repr

/-- Sequence a fallible step into the rest of the run; an uncaught
rejection of the step aborts the whole `finalize` call. -/
def Res.andThen : Res α → (α → St → FinResult) → FinResult
  | Res.ok a st, k => k a st
  | Res.err c st, _ => FinResult.thrown c st

def FinResult.st : FinResult → St
  | FinResult.urlFlow st => st
  | FinResult.noFiles st => st
  | FinResult.thrown _ st => st
  | FinResult.ok st => st

def FinResult.isOk : FinResult → Bool
  | FinResult.ok _ => true
  | _ => false

def FinResult.isThrown : FinResult → Bool
  | FinResult.thrown _ _ => true
  | _ => false

/-- `ensureDir`: create the directory unless it already exists. -/
def ensureDir (env : IOEnv) (st : St) (abs : FsPath) : Res Unit :=
  if abs ∈ st.fs.dirs then Res.ok () st
  else if env.mkdirFails abs then Res.err (Cause.io abs) st
  else Res.ok () { st with fs := { st.fs with dirs := abs :: st.fs.dirs } }

/-- `writeBytes`: write binary content, failing when the environment
injects an I/O error at that path. -/
def writeBytes (env : IOEnv) (st : St) (abs : FsPath) (data : Bytes) : Res Unit :=
  if env.writeFails abs then Res.err (Cause.io abs) st
  else Res.ok () { st with fs := st.fs.setFile abs (Content.bytes data) }

/-- `writeText`: write text content. -/
def writeText (env : IOEnv) (st : St) (abs : FsPath) (s : String) : Res Unit :=
  if env.writeFails abs then Res.err (Cause.io abs) st
  else Res.ok () { st with fs := st.fs.setFile abs (Content.text s) }

/-- `writeText` of `JSON.stringify(metadata, null, 2)`, keeping the
document value as the content. -/
def writeMeta (env : IOEnv) (st : St) (abs : FsPath) (m : MetadataDoc) : Res Unit :=
  if env.writeFails abs then Res.err (Cause.io abs) st
  else Res.ok () { st with fs := st.fs.setFile abs (Content.metaDoc m) }

/-- The printable-ASCII symbols and punctuation in the order the ICU
root collation (the DUCET) assigns them: connector, dash, terminators,
quotes, brackets, other punctuation, modifier and math symbols, then
currency.  All of them collate before digits, and digits before
letters. -/
def asciiSymbols : List Char :=
  [' ', '_', '-', ',', ';', ':', '!', '?', '.', '\x27', '\x22',
   '(', ')', '[', ']', '\x7b', '\x7d', '@', '*', '/', '\x5c',
   '&', '#', '%', '\x60', '^', '+', '<', '=', '>', '|', '~', '$']

/-- Primary collation weight of one character under the ICU root order
restricted to printable ASCII: symbols and punctuation first (in DUCET
order), then digits, then letters compared caselessly.  Characters
outside that repertoire keep codepoint order after everything else. -/
def charPrimary (c : Char) : Nat :=
  match asciiSymbols.findIdx? (fun x => x == c) with
  | some i => i + 1
  | none =>
    if 48 ≤ c.toNat ∧ c.toNat ≤ 57 then 100 + c.toNat
    else
      let l := (lowerChar c).toNat
      if 97 ≤ l ∧ l ≤ 122 then 200 + l
      else 1000 + c.toNat

/-- Case weight of one character: on a primary tie the root collation's
tertiary level orders lowercase before uppercase. -/
def charCase (c : Char) : Nat :=
  if 65 ≤ c.toNat ∧ c.toNat ≤ 90 then 1 else 0

def cmpWeights : List Nat → List Nat → Ordering
  | [], [] => Ordering.eq
  | [], _ :: _ => Ordering.lt
  | _ :: _, [] => Ordering.gt
  | a :: as, b :: bs =>
    if a < b then Ordering.lt
    else if b < a then Ordering.gt
    else cmpWeights as bs

/-- Models JavaScript's default-locale `String.prototype.localeCompare`
on ASCII file names: a primary pass over the root-collation weights
(symbols before digits before letters, letters caseless), then a
tertiary pass over the case pattern with lowercase first. -/
def localeCompare (a b : String) : Ordering :=
  match cmpWeights (a.data.map charPrimary) (b.data.map charPrimary) with
  | Ordering.eq => cmpWeights (a.data.map charCase) (b.data.map charCase)
  | o => o

/-- One step of the stable ascending sort `Array.prototype.sort` performs
with the comparator `(a, b) => fileName(a).localeCompare(fileName(b))`. -/
def insertByDisplay (x : WebFile) : List WebFile → List WebFile
  | [] => [x]
  | y :: ys =>
    if localeCompare (fileName x) (fileName y) = Ordering.gt then
      y :: insertByDisplay x ys
    else x :: y :: ys

/-- `files.sort((a, b) => fileName(a).localeCompare(fileName(b)))`. -/
def sortByDisplay : List WebFile → List WebFile
  | [] => []
  | x :: xs => insertByDisplay x (sortByDisplay xs)

/-- The match `name.match(/\.(png|jpe?g|webp|gif|svg)$/i)`, lowercased
(`extMatch[0].toLowerCase()`). -/
def imageExt (s : String) : Option String :=
  let l := lowerStr s
  if strEndsWith l ".png" then some ".png"
  else if strEndsWith l ".jpeg" then some ".jpeg"
  else if strEndsWith l ".jpg" then some ".jpg"
  else if strEndsWith l ".webp" then some ".webp"
  else if strEndsWith l ".gif" then some ".gif"
  else if strEndsWith l ".svg" then some ".svg"
  else none

/-- The preview file name `finalize` settles on: `preview.<ext>` for an
attached image (falling back to `.png` for an unrecognized extension),
`preview.svg` otherwise. -/
def previewNameOf (meta : ModMetadata) : String :=
  match meta.imageFile with
  | some f => "preview" ++ ((imageExt f.name).getD ".png")
  | none => "preview.svg"

/-- The inline placeholder SVG `FALLBACK_SVG` of `finalize`. -/
def fallbackSvg : String :=
  "<svg xmlns=\"http://www.w3.org/2000/svg\" width=\"640\" height=\"360\"><defs><linearGradient id=\"g\" x1=\"0\" x2=\"1\" y1=\"0\" y2=\"1\"><stop stop-color=\"#1f2937\" offset=\"0\"/><stop stop-color=\"#111827\" offset=\"1\"/></linearGradient></defs><rect width=\"100%\" height=\"100%\" fill=\"url(#g)\"/><g font-family=\"Inter, Arial, sans-serif\" fill=\"#E5E7EB\" text-anchor=\"middle\"><text x=\"50%\" y=\"48%\" font-size=\"36\" font-weight=\"700\">MOD</text><text x=\"50%\" y=\"62%\" font-size=\"14\" fill=\"#9CA3AF\">No image provided</text></g></svg>"

/-- Step 2 of `finalize`: write the preview image (or the placeholder)
into the mod root and report the preview file name chosen. -/
def writePreview (env : IOEnv) (meta : ModMetadata) (modDir : FsPath)
    (st : St) : Res String :=
  match meta.imageFile with
  | some f =>
    match writeBytes env st (modDir ++ [previewNameOf meta]) f.data with
    | Res.ok _ st' => Res.ok (previewNameOf meta) st'
    | Res.err c st' => Res.err c st'
  | none =>
    match writeText env st (modDir ++ [previewNameOf meta]) fallbackSvg with
    | Res.ok _ st' => Res.ok (previewNameOf meta) st'
    | Res.err c st' => Res.err c st'

/-- `entry.name.split('/').pop() || 'mod.vpk'`. -/
def baseNameOr (s dflt : String) : String :=
  let seg := lastSegment s
  if seg = "" then dflt else seg

/-- The body of the `try` block of `finalize`: stage the payload for the
classified source.  Any `Res.err` here is what the surrounding `catch`
receives. -/
def stagePayload (env : IOEnv) (det : DetectedSource)
    (modDir filesDir : FsPath) (st : St) : Res Unit :=
  match det with
  | DetectedSource.vpk f =>
    writeBytes env st (filesDir ++ [f.name]) f.bytes
  | DetectedSource.folderVpk files _ =>
    match (sortByDisplay files).find? (fun f => isVpkName f.name) with
    | none => Res.err (Cause.fail "No .vpk found in folder") st
    | some first => writeBytes env st (filesDir ++ [first.name]) first.bytes
  | DetectedSource.archive f =>
    if strEndsWith (lowerStr f.name) ".zip" then
      match env.parseZip f.bytes with
      | none => Res.err (Cause.fail "zip load failed") st
      | some zip =>
        match zip.entries.find? (fun e => !e.dir && isVpkName e.name) with
        | none =>
          match writeBytes env st (modDir ++ [f.name]) f.bytes with
          | Res.ok _ st' =>
            Res.ok () (addToast st'
              "No .vpk found inside .zip – stored archive for installer")
          | Res.err c st' => Res.err c st'
        | some en =>
          writeBytes env st (filesDir ++ [baseNameOr en.name "mod.vpk"]) en.data
    else
      writeBytes env st (modDir ++ [f.name]) f.bytes

/-- Step 3 of `finalize` with its `catch` handler: a failure inside the
`try` block shows the "Failed to process archive" toast and, when the
source carries a single `file`, falls back to writing that original file
into the mod root (a failure of the fallback write itself is uncaught). -/
def catchPayload (env : IOEnv) (det : DetectedSource)
    (modDir filesDir : FsPath) (st : St) : Res Unit :=
  match stagePayload env det modDir filesDir st with
  | Res.ok a st' => Res.ok a st'
  | Res.err _ stE =>
    let stT := addToast stE "Failed to process archive"
    match det with
    | DetectedSource.vpk f => writeBytes env stT (modDir ++ [f.name]) f.bytes
    | DetectedSource.archive f => writeBytes env stT (modDir ++ [f.name]) f.bytes
    | DetectedSource.folderVpk _ _ => Res.ok () stT

/-- Step 4 of `finalize`: re-read `files/`; when no staged file matches
the packed-asset extension and the source was an archive, additionally
copy the original archive into the mod root. -/
def postArchiveCheck (env : IOEnv) (det : DetectedSource)
    (modDir filesDir : FsPath) (st : St) : Res Unit :=
  let hasVpk := (childNames st.fs filesDir).any (fun n => isVpkName n)
  if !hasVpk then
    match det with
    | DetectedSource.archive f => writeBytes env st (modDir ++ [f.name]) f.bytes
    | _ => Res.ok () st
  else Res.ok () st

/-- The metadata document `finalize` assembles. -/
def buildMetadata (modId : String) (meta : ModMetadata)
    (category nowISO previewName : String) : MetadataDoc :=
  { id := modId
    kind := "local"
    name := meta.name
    author := strOr meta.author "Unknown"
    link := strOrNull meta.link
    description := strOrNull meta.description
    category := category
    createdAt := nowISO
    preview := previewName
    schemaVer := 1 }

/-- The `sourceType` form field. -/
inductive SourceType where
  | url | archive | vpk | folderVpk
  deriving DecidableEq, Repr

def modsRootOf (env : IOEnv) : FsPath := env.baseDir ++ ["mods"]

def modDirOf (env : IOEnv) : FsPath := modsRootOf env ++ ["local-" ++ env.uuid]

def filesDirOf (env : IOEnv) : FsPath := modDirOf env ++ ["files"]

/-- The staging part of `finalize`, from the `sourceType` check to the
final success toast.  `meta` is the record `validateAndGet` returned
(the guard on a failed validation returns before this point), and the
store updates (`addMod`/`setModPath`/`setModStatus`) lie outside the
staged filesystem model. -/
def finalize (env : IOEnv) (meta : ModMetadata) (category : String)
    (sourceType : SourceType) (detected : Option DetectedSource)
    (st0 : St) : FinResult :=
  if sourceType = SourceType.url then
    FinResult.urlFlow (addToast st0 "URL flow is handled by the API pipeline.")
  else
    match detected with
    | none => FinResult.noFiles (addToast st0 "No files detected.")
    | some det =>
      let modId := "local-" ++ env.uuid
      let modDir := modDirOf env
      let filesDir := filesDirOf env
      (ensureDir env st0 (modsRootOf env)).andThen fun _ st1 =>
      (ensureDir env st1 modDir).andThen fun _ st2 =>
      (ensureDir env st2 filesDir).andThen fun _ st3 =>
      (writePreview env meta modDir st3).andThen fun previewName st4 =>
      (catchPayload env det modDir filesDir st4).andThen fun _ st5 =>
      (postArchiveCheck env det modDir filesDir st5).andThen fun _ st6 =>
      (writeMeta env st6 (modDir ++ ["metadata.json"])
          (buildMetadata modId meta category env.nowISO previewName)).andThen
        fun _ st7 =>
      FinResult.ok (addToast st7 ("Added: " ++ meta.name))

/-! ## Path and file-name facts used when unfolding staging runs -/

theorem path_extend_ne (p s : FsPath) (hs : s ≠ []) : p ++ s ≠ p := by
  intro he
  have hl := congrArg List.length he
  simp [List.length_append] at hl
  exact hs hl

theorem path_ne_extend (p s : FsPath) (hs : s ≠ []) : p ≠ p ++ s :=
  (path_extend_ne p s hs).symm

theorem path_extend_one_ne (p : FsPath) (a : String) : p ++ [a] ≠ p :=
  path_extend_ne p [a] (by simp)

theorem path_ne_extend_one (p : FsPath) (a : String) : p ≠ p ++ [a] :=
  path_ne_extend p [a] (by simp)

theorem path_extend_two_ne (p : FsPath) (a b : String) : p ++ [a, b] ≠ p :=
  path_extend_ne p [a, b] (by simp)

theorem path_ne_extend_two (p : FsPath) (a b : String) : p ≠ p ++ [a, b] :=
  path_ne_extend p [a, b] (by simp)

theorem path_one_ne_two (p : FsPath) (a b c : String) :
    p ++ [a] ≠ p ++ [b, c] := by
  intro he
  have hl := congrArg List.length he
  simp [List.length_append] at hl

theorem path_two_ne_one (p : FsPath) (a b c : String) :
    p ++ [a, b] ≠ p ++ [c] := by
  intro he
  have hl := congrArg List.length he
  simp [List.length_append] at hl

/-- The preview file is always named `preview.<one of six extensions>`. -/
theorem previewNameOf_cases (m : ModMetadata) :
    previewNameOf m = "preview.png" ∨ previewNameOf m = "preview.jpeg" ∨
    previewNameOf m = "preview.jpg" ∨ previewNameOf m = "preview.webp" ∨
    previewNameOf m = "preview.gif" ∨ previewNameOf m = "preview.svg" := by
  cases h : m.imageFile with
  | none => simp [previewNameOf, h]
  | some f =>
    simp only [previewNameOf, h, imageExt]
    split_ifs <;> simp

theorem previewName_ne_metadataJson (m : ModMetadata) :
    previewNameOf m ≠ "metadata.json" := by
  rcases previewNameOf_cases m with h | h | h | h | h | h <;> rw [h] <;> decide

theorem metadataJson_ne_previewName (m : ModMetadata) :
    "metadata.json" ≠ previewNameOf m :=
  (previewName_ne_metadataJson m).symm

theorem zipName_ne_previewName (m : ModMetadata) (n : String)
    (h : strEndsWith (lowerStr n) ".zip" = true) : n ≠ previewNameOf m := by
  intro he
  subst he
  rcases previewNameOf_cases m with h' | h' | h' | h' | h' | h' <;>
    rw [h'] at h <;> exact absurd h (by decide)

theorem previewName_ne_zipName (m : ModMetadata) (n : String)
    (h : strEndsWith (lowerStr n) ".zip" = true) : previewNameOf m ≠ n :=
  (zipName_ne_previewName m n h).symm

theorem zipName_ne_metadataJson (n : String)
    (h : strEndsWith (lowerStr n) ".zip" = true) : n ≠ "metadata.json" := by
  intro he
  subst he
  exact absurd h (by decide)

theorem vpkName_ne_previewName (m : ModMetadata) (n : String)
    (h : isVpkName n = true) : n ≠ previewNameOf m := by
  intro he
  subst he
  rcases previewNameOf_cases m with h' | h' | h' | h' | h' | h' <;>
    rw [h'] at h <;> exact absurd h (by decide)

theorem vpkName_ne_metadataJson (n : String)
    (h : isVpkName n = true) : n ≠ "metadata.json" := by
  intro he
  subst he
  exact absurd h (by decide)

/-- The first element satisfying the predicate is found, whatever
follows it. -/
theorem find?_first_match {α : Type} (p : α → Bool) (pre : List α) (x : α)
    (post : List α) (hpre : ∀ y ∈ pre, p y = false) (hx : p x = true) :
    (pre ++ x :: post).find? p = some x := by
  induction pre with
  | nil => simp [List.find?, hx]
  | cons a as ih =>
    have ha : p a = false := hpre a (by simp)
    simp only [List.cons_append, List.find?, ha]
    exact ih (fun y hy => hpre y (by simp [hy]))

/-! ## Claim C8 -/

/-- Claim C8: staging with no detected source fails with the
"no source" outcome and writes nothing at all. -/
theorem c8_unrecognized_no_source (env : IOEnv) (meta : ModMetadata)
    (category : String) (sourceType : SourceType) (st0 : St)
    (h : sourceType ≠ SourceType.url) :
    finalize env meta category sourceType none st0 =
      FinResult.noFiles (addToast st0 "No files detected.") ∧
    (finalize env meta category sourceType none st0).st.fs = st0.fs := by
  constructor
  · simp [finalize, h]
  · simp [finalize, h, FinResult.st, addToast]

theorem c8_witness :
    finalize
        { baseDir := ["app"], uuid := "u1", nowISO := "t",
          mkdirFails := fun _ => false, writeFails := fun _ => false,
          parseZip := fun _ => none }
        { name := "M", author := none, link := none, description := none,
          imageFile := none }
        "Skins" SourceType.vpk none St.init =
      FinResult.noFiles (addToast St.init "No files detected.") :=
  (c8_unrecognized_no_source _ _ "Skins" SourceType.vpk St.init (by decide)).1

/-! ## Claim C3 -/

/-- A failure-free environment over the standard fixture paths, with a
configurable `writeFails` set and ZIP table. -/
def mkEnv (wf : FsPath → Bool) (pz : Bytes → Option ZipArchive) : IOEnv :=
  { baseDir := ["app"], uuid := "u1", nowISO := "2026-01-01T00:00:00.000Z",
    mkdirFails := fun _ => false, writeFails := wf, parseZip := pz }

def envAllOk : IOEnv := mkEnv (fun _ => false) (fun _ => none)

def metaPlain : ModMetadata :=
  { name := "Red Armor", author := none, link := none, description := none,
    imageFile := none }

/-- Claim C3, amended: a failure while writing the preview image is not
caught anywhere — the run aborts with that I/O error, and payload
staging is never reached (no file at all has been written). -/
theorem c3_preview_failure_aborts (env : IOEnv) (meta : ModMetadata)
    (category : String) (sourceType : SourceType) (det : DetectedSource)
    (img : ImageFile)
    (hsrc : sourceType ≠ SourceType.url)
    (himg : meta.imageFile = some img)
    (hmk : ∀ p, env.mkdirFails p = false)
    (hw : env.writeFails (modDirOf env ++ [previewNameOf meta]) = true) :
    finalize env meta category sourceType (some det) St.init =
      FinResult.thrown (Cause.io (modDirOf env ++ [previewNameOf meta]))
        { fs := { dirs := [filesDirOf env, modDirOf env, modsRootOf env],
                  files := [] },
          toasts := [] } := by
  have hw' : env.writeFails
      (env.baseDir ++ ["mods", "local-" ++ env.uuid, previewNameOf meta]) = true := by
    simpa [modDirOf, modsRootOf, List.append_assoc] using hw
  simp [finalize, hsrc, ensureDir, hmk, writePreview, himg, writeBytes, hw',
    Res.andThen, St.init, modDirOf, filesDirOf, modsRootOf, List.append_assoc,
    path_extend_one_ne, path_ne_extend_one, path_extend_two_ne,
    path_ne_extend_two, path_one_ne_two, path_two_ne_one]

/-- Claim C3 counterexample: with an attached preview image whose write
fails, the whole operation fails (it is not shielded), and no payload
is staged. -/
theorem c3_counterexample :
    (finalize (mkEnv (fun p => decide (p = ["app", "mods", "local-u1", "preview.png"]))
        (fun _ => none))
      { metaPlain with imageFile := some ⟨"shot.PNG", [5]⟩ }
      "Skins" SourceType.vpk
      (some (DetectedSource.vpk ⟨"SkinPack.vpk", "", [7]⟩))
      St.init).isThrown = true ∧
    (finalize (mkEnv (fun p => decide (p = ["app", "mods", "local-u1", "preview.png"]))
        (fun _ => none))
      { metaPlain with imageFile := some ⟨"shot.PNG", [5]⟩ }
      "Skins" SourceType.vpk
      (some (DetectedSource.vpk ⟨"SkinPack.vpk", "", [7]⟩))
      St.init).st.fs.files = [] := by
  decide

theorem c3_witness :
    finalize (mkEnv (fun p => decide (p = ["app", "mods", "local-u1", "preview.png"]))
        (fun _ => none))
      { metaPlain with imageFile := some ⟨"shot.PNG", [5]⟩ }
      "Skins" SourceType.vpk
      (some (DetectedSource.vpk ⟨"SkinPack.vpk", "", [7]⟩))
      St.init =
      FinResult.thrown (Cause.io (["app", "mods", "local-u1"] ++ ["preview.png"]))
        { fs := { dirs := [["app", "mods", "local-u1", "files"],
                           ["app", "mods", "local-u1"], ["app", "mods"]],
                  files := [] },
          toasts := [] } := by
  have h := c3_preview_failure_aborts
    (mkEnv (fun p => decide (p = ["app", "mods", "local-u1", "preview.png"]))
      (fun _ => none))
    { metaPlain with imageFile := some ⟨"shot.PNG", [5]⟩ }
    "Skins" SourceType.vpk (DetectedSource.vpk ⟨"SkinPack.vpk", "", [7]⟩)
    ⟨"shot.PNG", [5]⟩ (by decide) rfl (fun p => rfl) (by decide)
  simpa using h

/-! ## Claim C1 -/

theorem modDirOf_ne_modsRootOf (env : IOEnv) : modDirOf env ≠ modsRootOf env :=
  path_extend_ne _ _ (by simp)

theorem filesDirOf_ne_modDirOf (env : IOEnv) : filesDirOf env ≠ modDirOf env :=
  path_extend_ne _ _ (by simp)

theorem modDirOf_ne_filesDirOf (env : IOEnv) : modDirOf env ≠ filesDirOf env :=
  (filesDirOf_ne_modDirOf env).symm

theorem filesDirOf_ne_modsRootOf (env : IOEnv) :
    filesDirOf env ≠ modsRootOf env := by
  unfold filesDirOf modDirOf
  rw [List.append_assoc]
  exact path_extend_ne _ _ (by simp)

theorem filesDir_file_ne_modDir_file (env : IOEnv) (a b : String) :
    filesDirOf env ++ [a] ≠ modDirOf env ++ [b] := by
  unfold filesDirOf
  rw [List.append_assoc]
  exact fun h => path_one_ne_two (modDirOf env) b "files" a h.symm

theorem modDir_file_ne_filesDir_file (env : IOEnv) (a b : String) :
    modDirOf env ++ [a] ≠ filesDirOf env ++ [b] :=
  fun h => filesDir_file_ne_modDir_file env b a h.symm

theorem modDir_file_dropLast (env : IOEnv) (a : String) :
    (modDirOf env ++ [a]).dropLast = modDirOf env :=
  List.dropLast_concat

theorem filesDir_file_dropLast (env : IOEnv) (a : String) :
    (filesDirOf env ++ [a]).dropLast = filesDirOf env :=
  List.dropLast_concat

/-- Claim C1 counterexample: the payload write for a single packed-asset
source fails with an I/O error, yet the staging run returns success (the
`catch` handler recovers by storing the original file in the mod root),
so the operation is not fatal and a success result is returned. -/
theorem c1_counterexample :
    (finalize
      (mkEnv (fun p => decide (p = ["app", "mods", "local-u1", "files", "SkinPack.vpk"]))
        (fun _ => none))
      metaPlain "Skins" SourceType.vpk
      (some (DetectedSource.vpk ⟨"SkinPack.vpk", "", [7]⟩))
      St.init).isOk = true ∧
    lookupFile
      (finalize
        (mkEnv (fun p => decide (p = ["app", "mods", "local-u1", "files", "SkinPack.vpk"]))
          (fun _ => none))
        metaPlain "Skins" SourceType.vpk
        (some (DetectedSource.vpk ⟨"SkinPack.vpk", "", [7]⟩))
        St.init).st.fs
      ["app", "mods", "local-u1", "SkinPack.vpk"] = some (Content.bytes [7]) := by
  decide

/-- Claim C1, amended: an I/O error while creating the mod directories
is fatal and surfaces as the I/O cause with nothing written, but an I/O
error while writing the payload is caught by the recovery handler: the
original file is copied into the mod root (for a single-file source) and
the run still returns success, with the recovery toast observable and
nothing staged under `files/`. -/
theorem c1_io_error_semantics :
    (∀ (env : IOEnv) (meta : ModMetadata) (category : String)
        (sourceType : SourceType) (det : DetectedSource),
      sourceType ≠ SourceType.url →
      env.mkdirFails (modsRootOf env) = true →
      finalize env meta category sourceType (some det) St.init =
        FinResult.thrown (Cause.io (modsRootOf env)) St.init) ∧
    (∀ (env : IOEnv) (meta : ModMetadata) (category : String)
        (sourceType : SourceType) (f : WebFile),
      sourceType ≠ SourceType.url →
      meta.imageFile = none →
      isVpkName f.name = true →
      (∀ p, env.mkdirFails p = false) →
      env.writeFails (filesDirOf env ++ [f.name]) = true →
      env.writeFails (modDirOf env ++ ["preview.svg"]) = false →
      env.writeFails (modDirOf env ++ [f.name]) = false →
      env.writeFails (modDirOf env ++ ["metadata.json"]) = false →
      (finalize env meta category sourceType
          (some (DetectedSource.vpk f)) St.init).isOk = true ∧
      lookupFile (finalize env meta category sourceType
          (some (DetectedSource.vpk f)) St.init).st.fs
        (modDirOf env ++ [f.name]) = some (Content.bytes f.bytes) ∧
      "Failed to process archive" ∈ (finalize env meta category sourceType
          (some (DetectedSource.vpk f)) St.init).st.toasts ∧
      lookupFile (finalize env meta category sourceType
          (some (DetectedSource.vpk f)) St.init).st.fs
        (filesDirOf env ++ [f.name]) = none) := by
  constructor
  · intro env meta category sourceType det hsrc hmk
    simp [finalize, hsrc, ensureDir, St.init, hmk, Res.andThen]
  · intro env meta category sourceType f hsrc himg hvpk hmk hwPayload hwPrev
      hwRoot hwMeta
    have hfp : f.name ≠ "preview.svg" := by
      have h := vpkName_ne_previewName meta f.name hvpk
      simpa [previewNameOf, himg] using h
    have hfp' : "preview.svg" ≠ f.name := hfp.symm
    have hfm : f.name ≠ "metadata.json" := vpkName_ne_metadataJson f.name hvpk
    have hfm' : "metadata.json" ≠ f.name := hfm.symm
    have hrun : finalize env meta category sourceType
        (some (DetectedSource.vpk f)) St.init =
      FinResult.ok
        { fs := { dirs := [filesDirOf env, modDirOf env, modsRootOf env],
                  files := [(modDirOf env ++ ["metadata.json"],
                             Content.metaDoc (buildMetadata ("local-" ++ env.uuid)
                               meta category env.nowISO "preview.svg")),
                            (modDirOf env ++ [f.name], Content.bytes f.bytes),
                            (modDirOf env ++ ["preview.svg"],
                             Content.text fallbackSvg)] },
          toasts := ["Failed to process archive", "Added: " ++ meta.name] } := by
      simp [finalize, hsrc, ensureDir, St.init, hmk, Res.andThen, writePreview,
        himg, previewNameOf, writeText, writeBytes, writeMeta, stagePayload,
        catchPayload, postArchiveCheck, FS.setFile, addToast,
        hwPayload, hwPrev, hwRoot, hwMeta, hfp, hfp', hfm, hfm',
        modDirOf_ne_modsRootOf, filesDirOf_ne_modDirOf, modDirOf_ne_filesDirOf,
        filesDirOf_ne_modsRootOf, filesDir_file_ne_modDir_file,
        modDir_file_ne_filesDir_file, modDir_file_dropLast,
        filesDir_file_dropLast, buildMetadata]
    rw [hrun]
    refine ⟨rfl, ?_, by simp [FinResult.st], ?_⟩
    · simp [FinResult.st, lookupFile, List.find?, hfm', hfp,
        filesDir_file_ne_modDir_file, modDir_file_ne_filesDir_file,
        modDirOf_ne_filesDirOf, filesDirOf_ne_modDirOf]
    · simp [FinResult.st, lookupFile, List.find?, hfm', hfp,
        filesDir_file_ne_modDir_file, modDir_file_ne_filesDir_file,
        modDirOf_ne_filesDirOf, filesDirOf_ne_modDirOf]

def envMkFail : IOEnv :=
  { mkEnv (fun _ => false) (fun _ => none) with
    mkdirFails := fun p => decide (p = ["app", "mods"]) }

def envPayloadFail : IOEnv :=
  mkEnv (fun p => decide (p = ["app", "mods", "local-u1", "files", "SkinPack.vpk"]))
    (fun _ => none)

theorem c1_witness :
    (finalize envMkFail metaPlain "Skins" SourceType.vpk
        (some (DetectedSource.vpk ⟨"SkinPack.vpk", "", [7]⟩)) St.init =
      FinResult.thrown (Cause.io (modsRootOf envMkFail)) St.init) ∧
    (finalize envPayloadFail metaPlain "Skins" SourceType.vpk
        (some (DetectedSource.vpk ⟨"SkinPack.vpk", "", [7]⟩)) St.init).isOk = true := by
  constructor
  · exact c1_io_error_semantics.1 envMkFail metaPlain "Skins" SourceType.vpk
      (DetectedSource.vpk ⟨"SkinPack.vpk", "", [7]⟩) (by decide) (by decide)
  · exact (c1_io_error_semantics.2 envPayloadFail metaPlain "Skins"
      SourceType.vpk ⟨"SkinPack.vpk", "", [7]⟩ (by decide) rfl (by decide)
      (fun p => rfl) (by decide) (by decide) (by decide) (by decide)).1

theorem modDir_file_getLastD (env : IOEnv) (a d : String) :
    (modDirOf env ++ [a]).getLastD d = a := List.getLastD_concat d a _

theorem filesDir_file_getLastD (env : IOEnv) (a d : String) :
    (filesDirOf env ++ [a]).getLastD d = a := List.getLastD_concat d a _

/-- The content the preview step stores: the attached image's bytes, or
the placeholder markup. -/
def previewContentOf (meta : ModMetadata) : Content :=
  match meta.imageFile with
  | some f => Content.bytes f.data
  | none => Content.text fallbackSvg

/-- A failure-free environment writes the preview image (or the
placeholder) and reports the settled preview name. -/
theorem writePreview_ok (env : IOEnv) (meta : ModMetadata) (modDir : FsPath)
    (hw : ∀ p, env.writeFails p = false) (st : St) :
    writePreview env meta modDir st =
      Res.ok (previewNameOf meta)
        { st with
          fs := st.fs.setFile (modDir ++ [previewNameOf meta])
            (previewContentOf meta) } := by
  cases him : meta.imageFile with
  | none => simp [writePreview, him, writeText, hw, previewNameOf, previewContentOf]
  | some img => simp [writePreview, him, writeBytes, hw, previewNameOf, previewContentOf]

/-! ## Claim C2 -/

/-- Claim C2 counterexample: the sort key is the *displayed* file name
(the relative path when present), not the base name.  Here `b.vpk` is
first in base-name order, but `z.vpk` (relative path `a1/z.vpk`, which
sorts before `x2/b.vpk`) is the entry the stager copies. -/
theorem c2_counterexample :
    detectSource [⟨"z.vpk", "a1/z.vpk", [3]⟩, ⟨"b.vpk", "x2/b.vpk", [4]⟩] =
      some (DetectedSource.folderVpk
        [⟨"z.vpk", "a1/z.vpk", [3]⟩, ⟨"b.vpk", "x2/b.vpk", [4]⟩]
        (some "a1")) ∧
    lookupFile (finalize envAllOk metaPlain "Skins" SourceType.folderVpk
        (some (DetectedSource.folderVpk
          [⟨"z.vpk", "a1/z.vpk", [3]⟩, ⟨"b.vpk", "x2/b.vpk", [4]⟩]
          (some "a1"))) St.init).st.fs
      ["app", "mods", "local-u1", "files", "z.vpk"] = some (Content.bytes [3]) ∧
    lookupFile (finalize envAllOk metaPlain "Skins" SourceType.folderVpk
        (some (DetectedSource.folderVpk
          [⟨"z.vpk", "a1/z.vpk", [3]⟩, ⟨"b.vpk", "x2/b.vpk", [4]⟩]
          (some "a1"))) St.init).st.fs
      ["app", "mods", "local-u1", "files", "b.vpk"] = none := by
  decide

/-- Claim C2, amended: the stager sorts the matching entries by their
displayed file name — the `webkitRelativePath` when one is present,
else the base name — under the default-locale comparison, picks the
first entry of the *sorted* order that matches the packed-asset
extension, and copies exactly that one entry's bytes into
`files_dir/<entry.name>`; for the three-entry folder drop
`["readme.txt", "a/b.vpk", "a/c.vpk"]` only `b.vpk` ends up under
`files/`, whichever order the entries arrive in — in particular when
`c.vpk` precedes `b.vpk` in the drop, so that an unsorted pick-first
stager would have staged `c.vpk` instead. -/
theorem c2_sort_key_semantics :
    (childNames (finalize envAllOk metaPlain "Skins" SourceType.folderVpk
        (detectSource
          [⟨"readme.txt", "a/readme.txt", [0]⟩,
           ⟨"b.vpk", "a/b.vpk", [1]⟩,
           ⟨"c.vpk", "a/c.vpk", [2]⟩]) St.init).st.fs
      ["app", "mods", "local-u1", "files"] = ["b.vpk"] ∧
     lookupFile (finalize envAllOk metaPlain "Skins" SourceType.folderVpk
        (detectSource
          [⟨"readme.txt", "a/readme.txt", [0]⟩,
           ⟨"b.vpk", "a/b.vpk", [1]⟩,
           ⟨"c.vpk", "a/c.vpk", [2]⟩]) St.init).st.fs
      ["app", "mods", "local-u1", "files", "b.vpk"] =
        some (Content.bytes [1])) ∧
    (childNames (finalize envAllOk metaPlain "Skins" SourceType.folderVpk
        (detectSource
          [⟨"readme.txt", "a/readme.txt", [0]⟩,
           ⟨"c.vpk", "a/c.vpk", [2]⟩,
           ⟨"b.vpk", "a/b.vpk", [1]⟩]) St.init).st.fs
      ["app", "mods", "local-u1", "files"] = ["b.vpk"] ∧
     lookupFile (finalize envAllOk metaPlain "Skins" SourceType.folderVpk
        (detectSource
          [⟨"readme.txt", "a/readme.txt", [0]⟩,
           ⟨"c.vpk", "a/c.vpk", [2]⟩,
           ⟨"b.vpk", "a/b.vpk", [1]⟩]) St.init).st.fs
      ["app", "mods", "local-u1", "files", "b.vpk"] =
        some (Content.bytes [1])) ∧
    (∀ (env : IOEnv) (meta : ModMetadata) (category : String)
        (sourceType : SourceType) (e1 e2 : WebFile) (fn : Option String),
      sourceType ≠ SourceType.url →
      localeCompare (fileName e1) (fileName e2) = Ordering.gt →
      isVpkName e1.name = true →
      isVpkName e2.name = true →
      e1.name ≠ e2.name →
      (∀ p, env.mkdirFails p = false) →
      (∀ p, env.writeFails p = false) →
      (finalize env meta category sourceType
          (some (DetectedSource.folderVpk [e1, e2] fn)) St.init).isOk = true ∧
      lookupFile (finalize env meta category sourceType
          (some (DetectedSource.folderVpk [e1, e2] fn)) St.init).st.fs
        (filesDirOf env ++ [e2.name]) = some (Content.bytes e2.bytes) ∧
      lookupFile (finalize env meta category sourceType
          (some (DetectedSource.folderVpk [e1, e2] fn)) St.init).st.fs
        (filesDirOf env ++ [e1.name]) = none ∧
      childNames (finalize env meta category sourceType
          (some (DetectedSource.folderVpk [e1, e2] fn)) St.init).st.fs
        (filesDirOf env) = [e2.name]) := by
  refine ⟨⟨by decide, by decide⟩, ⟨by decide, by decide⟩, ?_⟩
  intro env meta category sourceType e1 e2 fn hsrc hgt hvpk1 hvpk2 hne hmk hw
  have hne2 : e2.name ≠ e1.name := hne.symm
  have hrun : finalize env meta category sourceType
      (some (DetectedSource.folderVpk [e1, e2] fn)) St.init =
    FinResult.ok
      { fs := { dirs := [filesDirOf env, modDirOf env, modsRootOf env],
                files := [(modDirOf env ++ ["metadata.json"],
                           Content.metaDoc (buildMetadata ("local-" ++ env.uuid)
                             meta category env.nowISO (previewNameOf meta))),
                          (filesDirOf env ++ [e2.name], Content.bytes e2.bytes),
                          (modDirOf env ++ [previewNameOf meta],
                           previewContentOf meta)] },
        toasts := ["Added: " ++ meta.name] } := by
    simp [finalize, hsrc, ensureDir, St.init, hmk, hw, Res.andThen,
      writePreview_ok env meta, stagePayload, catchPayload, postArchiveCheck,
      FS.setFile, addToast, sortByDisplay, insertByDisplay, hgt,
      List.find?, hvpk2, writeBytes, writeMeta,
      modDirOf_ne_modsRootOf, filesDirOf_ne_modDirOf, modDirOf_ne_filesDirOf,
      filesDirOf_ne_modsRootOf, filesDir_file_ne_modDir_file,
      modDir_file_ne_filesDir_file, previewName_ne_metadataJson,
      metadataJson_ne_previewName, buildMetadata]
  rw [hrun]
  refine ⟨rfl, ?_, ?_, ?_⟩
  · simp [FinResult.st, lookupFile, List.find?,
      filesDir_file_ne_modDir_file, modDir_file_ne_filesDir_file,
      modDirOf_ne_filesDirOf, filesDirOf_ne_modDirOf]
  · simp [FinResult.st, lookupFile, List.find?, hne2,
      filesDir_file_ne_modDir_file, modDir_file_ne_filesDir_file,
      modDirOf_ne_filesDirOf, filesDirOf_ne_modDirOf]
  · simp [FinResult.st, childNames, modDir_file_dropLast,
      filesDir_file_dropLast, filesDir_file_getLastD,
      modDirOf_ne_filesDirOf, filesDirOf_ne_modDirOf]

theorem c2_witness :
    (finalize envAllOk metaPlain "Skins" SourceType.folderVpk
        (some (DetectedSource.folderVpk
          [⟨"c.vpk", "a/c.vpk", [2]⟩, ⟨"b.vpk", "a/b.vpk", [1]⟩]
          (some "a"))) St.init).isOk = true ∧
    lookupFile (finalize envAllOk metaPlain "Skins" SourceType.folderVpk
        (some (DetectedSource.folderVpk
          [⟨"c.vpk", "a/c.vpk", [2]⟩, ⟨"b.vpk", "a/b.vpk", [1]⟩]
          (some "a"))) St.init).st.fs
      (filesDirOf envAllOk ++ ["b.vpk"]) = some (Content.bytes [1]) ∧
    lookupFile (finalize envAllOk metaPlain "Skins" SourceType.folderVpk
        (some (DetectedSource.folderVpk
          [⟨"c.vpk", "a/c.vpk", [2]⟩, ⟨"b.vpk", "a/b.vpk", [1]⟩]
          (some "a"))) St.init).st.fs
      (filesDirOf envAllOk ++ ["c.vpk"]) = none ∧
    childNames (finalize envAllOk metaPlain "Skins" SourceType.folderVpk
        (some (DetectedSource.folderVpk
          [⟨"c.vpk", "a/c.vpk", [2]⟩, ⟨"b.vpk", "a/b.vpk", [1]⟩]
          (some "a"))) St.init).st.fs
      (filesDirOf envAllOk) = ["b.vpk"] :=
  c2_sort_key_semantics.2.2 envAllOk metaPlain "Skins" SourceType.folderVpk
    ⟨"c.vpk", "a/c.vpk", [2]⟩ ⟨"b.vpk", "a/b.vpk", [1]⟩ (some "a")
    (by decide) (by decide) (by decide) (by decide) (by decide)
    (fun p => rfl) (fun p => rfl)

/-! ## Claims C4, C5, C10 -/

/-- `find?` returns the sole element `filter` keeps. -/
theorem find?_of_filter_singleton {α : Type} (p : α → Bool) (l : List α) (x : α)
    (h : l.filter p = [x]) : l.find? p = some x := by
  induction l with
  | nil => simp at h
  | cons a as ih =>
    by_cases ha : p a = true
    · rw [List.filter_cons_of_pos ha] at h
      obtain ⟨h1, h2⟩ := List.cons_eq_cons.mp h
      subst h1
      simp [List.find?, ha]
    · have ha' : p a = false := by simpa using ha
      rw [List.filter_cons_of_neg ha] at h
      simp [List.find?, ha']
      exact ih h

/-- `find?` finds nothing when `filter` keeps nothing. -/
theorem find?_of_filter_nil {α : Type} (p : α → Bool) (l : List α)
    (h : l.filter p = []) : l.find? p = none := by
  rw [List.find?_eq_none]
  intro x hx
  have := List.filter_eq_nil_iff.mp h x hx
  simpa using this

instance : Nonempty Content := ⟨Content.bytes []⟩

instance : Nonempty (FsPath × Content) := ⟨([], Content.bytes [])⟩

instance : Nonempty Content := ⟨Content.bytes []⟩

instance : Nonempty (FsPath × Content) := ⟨([], Content.bytes [])⟩

theorem c4_zip_single_match_extracted (env : IOEnv) (meta : ModMetadata)
    (category : String) (sourceType : SourceType) (f : WebFile)
    (z : ZipArchive) (en : ZipEntry)
    (hsrc : sourceType ≠ SourceType.url)
    (hzip : strEndsWith (lowerStr f.name) ".zip" = true)
    (hparse : env.parseZip f.bytes = some z)
    (hfilter : z.entries.filter (fun e => !e.dir && isVpkName e.name) = [en])
    (hmk : ∀ p, env.mkdirFails p = false)
    (hw : ∀ p, env.writeFails p = false) :
    (finalize env meta category sourceType
        (some (DetectedSource.archive f)) St.init).isOk = true ∧
    lookupFile (finalize env meta category sourceType
        (some (DetectedSource.archive f)) St.init).st.fs
      (filesDirOf env ++ [baseNameOr en.name "mod.vpk"]) =
      some (Content.bytes en.data) := by
  have hfind := find?_of_filter_singleton _ _ _ hfilter
  have hfp := zipName_ne_previewName meta f.name hzip
  have hfp' := previewName_ne_zipName meta f.name hzip
  have hfm := zipName_ne_metadataJson f.name hzip
  have hfm' := (zipName_ne_metadataJson f.name hzip).symm
  by_cases hb : isVpkName (baseNameOr en.name "mod.vpk") = true
  · have hrun : finalize env meta category sourceType
        (some (DetectedSource.archive f)) St.init =
      FinResult.ok
        { fs := { dirs := [filesDirOf env, modDirOf env, modsRootOf env],
                  files := [(modDirOf env ++ ["metadata.json"],
                             Content.metaDoc (buildMetadata ("local-" ++ env.uuid)
                               meta category env.nowISO (previewNameOf meta))),
                            (filesDirOf env ++ [baseNameOr en.name "mod.vpk"],
                             Content.bytes en.data),
                            (modDirOf env ++ [previewNameOf meta],
                             previewContentOf meta)] },
          toasts := ["Added: " ++ meta.name] } := by
      simp [finalize, hsrc, ensureDir, St.init, hmk, hw, Res.andThen,
        writePreview_ok env meta, stagePayload, hzip, hparse, hfind,
        writeBytes, writeMeta, catchPayload, postArchiveCheck, childNames,
        FS.setFile, addToast, hb, hfp, hfp', hfm, hfm',
        modDirOf_ne_modsRootOf, filesDirOf_ne_modDirOf, modDirOf_ne_filesDirOf,
        filesDirOf_ne_modsRootOf, filesDir_file_ne_modDir_file,
        modDir_file_ne_filesDir_file, modDir_file_dropLast,
        filesDir_file_dropLast, modDir_file_getLastD, filesDir_file_getLastD,
        previewName_ne_metadataJson, metadataJson_ne_previewName, buildMetadata]
    rw [hrun]
    refine ⟨rfl, ?_⟩
    simp [FinResult.st, lookupFile, List.find?,
      filesDir_file_ne_modDir_file, modDir_file_ne_filesDir_file,
      modDirOf_ne_filesDirOf, filesDirOf_ne_modDirOf]
  · have hb' : isVpkName (baseNameOr en.name "mod.vpk") = false := by
      simpa using hb
    have hrun : finalize env meta category sourceType
        (some (DetectedSource.archive f)) St.init =
      FinResult.ok
        { fs := { dirs := [filesDirOf env, modDirOf env, modsRootOf env],
                  files := [(modDirOf env ++ ["metadata.json"],
                             Content.metaDoc (buildMetadata ("local-" ++ env.uuid)
                               meta category env.nowISO (previewNameOf meta))),
                            (modDirOf env ++ [f.name], Content.bytes f.bytes),
                            (filesDirOf env ++ [baseNameOr en.name "mod.vpk"],
                             Content.bytes en.data),
                            (modDirOf env ++ [previewNameOf meta],
                             previewContentOf meta)] },
          toasts := ["Added: " ++ meta.name] } := by
      simp [finalize, hsrc, ensureDir, St.init, hmk, hw, Res.andThen,
        writePreview_ok env meta, stagePayload, hzip, hparse, hfind,
        writeBytes, writeMeta, catchPayload, postArchiveCheck, childNames,
        FS.setFile, addToast, hb', hfp, hfp', hfm, hfm',
        modDirOf_ne_modsRootOf, filesDirOf_ne_modDirOf, modDirOf_ne_filesDirOf,
        filesDirOf_ne_modsRootOf, filesDir_file_ne_modDir_file,
        modDir_file_ne_filesDir_file, modDir_file_dropLast,
        filesDir_file_dropLast, modDir_file_getLastD, filesDir_file_getLastD,
        previewName_ne_metadataJson, metadataJson_ne_previewName, buildMetadata]
    rw [hrun]
    refine ⟨rfl, ?_⟩
    simp [FinResult.st, lookupFile, List.find?,
      filesDir_file_ne_modDir_file, modDir_file_ne_filesDir_file,
      modDirOf_ne_filesDirOf, filesDirOf_ne_modDirOf]

def envZipSkin : IOEnv :=
  mkEnv (fun _ => false)
    (fun b => if b = [10] then
        some { entries := [⟨"inner/skin.vpk", false, [9, 9]⟩] }
      else if b = [20] then some { entries := [] }
      else none)

theorem c4_witness :
    (finalize envZipSkin metaPlain "Skins" SourceType.archive
        (some (DetectedSource.archive ⟨"bundle.zip", "", [10]⟩)) St.init).isOk = true ∧
    lookupFile (finalize envZipSkin metaPlain "Skins" SourceType.archive
        (some (DetectedSource.archive ⟨"bundle.zip", "", [10]⟩)) St.init).st.fs
      (filesDirOf envZipSkin ++ [baseNameOr "inner/skin.vpk" "mod.vpk"]) =
      some (Content.bytes [9, 9]) :=
  c4_zip_single_match_extracted envZipSkin metaPlain "Skins" SourceType.archive
    ⟨"bundle.zip", "", [10]⟩ { entries := [⟨"inner/skin.vpk", false, [9, 9]⟩] }
    ⟨"inner/skin.vpk", false, [9, 9]⟩
    (by decide) (by decide) (by decide) (by decide) (fun p => rfl) (fun p => rfl)

/-- Claim C5: a supported ZIP archive containing no matching inner entry
is stored whole (unmodified) in the mod root, nothing is created under
`files/`, and the run still succeeds with the warning toast shown. -/
theorem c5_zip_no_match_fallback (env : IOEnv) (meta : ModMetadata)
    (category : String) (sourceType : SourceType) (f : WebFile)
    (z : ZipArchive)
    (hsrc : sourceType ≠ SourceType.url)
    (hzip : strEndsWith (lowerStr f.name) ".zip" = true)
    (hparse : env.parseZip f.bytes = some z)
    (hfilter : z.entries.filter (fun e => !e.dir && isVpkName e.name) = [])
    (hmk : ∀ p, env.mkdirFails p = false)
    (hw : ∀ p, env.writeFails p = false) :
    (finalize env meta category sourceType
        (some (DetectedSource.archive f)) St.init).isOk = true ∧
    lookupFile (finalize env meta category sourceType
        (some (DetectedSource.archive f)) St.init).st.fs
      (modDirOf env ++ [f.name]) = some (Content.bytes f.bytes) ∧
    childNames (finalize env meta category sourceType
        (some (DetectedSource.archive f)) St.init).st.fs
      (filesDirOf env) = [] ∧
    "No .vpk found inside .zip – stored archive for installer" ∈
      (finalize env meta category sourceType
        (some (DetectedSource.archive f)) St.init).st.toasts := by
  have hfind := find?_of_filter_nil _ _ hfilter
  have hfp := zipName_ne_previewName meta f.name hzip
  have hfp' := previewName_ne_zipName meta f.name hzip
  have hfm := zipName_ne_metadataJson f.name hzip
  have hfm' := (zipName_ne_metadataJson f.name hzip).symm
  have hrun : finalize env meta category sourceType
      (some (DetectedSource.archive f)) St.init =
    FinResult.ok
      { fs := { dirs := [filesDirOf env, modDirOf env, modsRootOf env],
                files := [(modDirOf env ++ ["metadata.json"],
                           Content.metaDoc (buildMetadata ("local-" ++ env.uuid)
                             meta category env.nowISO (previewNameOf meta))),
                          (modDirOf env ++ [f.name], Content.bytes f.bytes),
                          (modDirOf env ++ [previewNameOf meta],
                           previewContentOf meta)] },
        toasts := ["No .vpk found inside .zip – stored archive for installer",
                   "Added: " ++ meta.name] } := by
    simp [finalize, hsrc, ensureDir, St.init, hmk, hw, Res.andThen,
      writePreview_ok env meta, stagePayload, hzip, hparse, hfind,
      writeBytes, writeMeta, catchPayload, postArchiveCheck, childNames,
      FS.setFile, addToast, hfp, hfp', hfm, hfm',
      modDirOf_ne_modsRootOf, filesDirOf_ne_modDirOf, modDirOf_ne_filesDirOf,
      filesDirOf_ne_modsRootOf, filesDir_file_ne_modDir_file,
      modDir_file_ne_filesDir_file, modDir_file_dropLast,
      filesDir_file_dropLast, modDir_file_getLastD, filesDir_file_getLastD,
      previewName_ne_metadataJson, metadataJson_ne_previewName, buildMetadata]
  rw [hrun]
  refine ⟨rfl, ?_, ?_, ?_⟩
  · simp [FinResult.st, lookupFile, List.find?, hfm', hfp,
      filesDir_file_ne_modDir_file, modDir_file_ne_filesDir_file,
      modDirOf_ne_filesDirOf, filesDirOf_ne_modDirOf]
  · simp [FinResult.st, childNames, modDir_file_dropLast,
      modDirOf_ne_filesDirOf, filesDirOf_ne_modDirOf]
  · simp [FinResult.st]

theorem c5_witness :
    (finalize envZipSkin metaPlain "Skins" SourceType.archive
        (some (DetectedSource.archive ⟨"nopayload.zip", "", [20]⟩)) St.init).isOk = true ∧
    lookupFile (finalize envZipSkin metaPlain "Skins" SourceType.archive
        (some (DetectedSource.archive ⟨"nopayload.zip", "", [20]⟩)) St.init).st.fs
      (modDirOf envZipSkin ++ ["nopayload.zip"]) = some (Content.bytes [20]) ∧
    childNames (finalize envZipSkin metaPlain "Skins" SourceType.archive
        (some (DetectedSource.archive ⟨"nopayload.zip", "", [20]⟩)) St.init).st.fs
      (filesDirOf envZipSkin) = [] ∧
    "No .vpk found inside .zip – stored archive for installer" ∈
      (finalize envZipSkin metaPlain "Skins" SourceType.archive
        (some (DetectedSource.archive ⟨"nopayload.zip", "", [20]⟩)) St.init).st.toasts := by
  have h := c5_zip_no_match_fallback envZipSkin metaPlain "Skins"
    SourceType.archive ⟨"nopayload.zip", "", [20]⟩ { entries := [] }
    (by decide) (by decide) (by decide) (by decide) (fun p => rfl) (fun p => rfl)
  exact h

/-- Claim C10: with several matching non-directory inner entries, only
the first in the archive's entry order is extracted (exactly one file is
created under `files/`), and directory entries are never considered
matches even when their names carry the packed-asset extension. -/
theorem c10_zip_first_match_only (env : IOEnv) (meta : ModMetadata)
    (category : String) (sourceType : SourceType) (f : WebFile)
    (pre post : List ZipEntry) (en : ZipEntry)
    (hsrc : sourceType ≠ SourceType.url)
    (hzip : strEndsWith (lowerStr f.name) ".zip" = true)
    (hparse : env.parseZip f.bytes = some { entries := pre ++ en :: post })
    (hpre : ∀ x ∈ pre, x.dir = true ∨ isVpkName x.name = false)
    (hen : en.dir = false) (henVpk : isVpkName en.name = true)
    (hmk : ∀ p, env.mkdirFails p = false)
    (hw : ∀ p, env.writeFails p = false) :
    (finalize env meta category sourceType
        (some (DetectedSource.archive f)) St.init).isOk = true ∧
    lookupFile (finalize env meta category sourceType
        (some (DetectedSource.archive f)) St.init).st.fs
      (filesDirOf env ++ [baseNameOr en.name "mod.vpk"]) =
      some (Content.bytes en.data) ∧
    childNames (finalize env meta category sourceType
        (some (DetectedSource.archive f)) St.init).st.fs
      (filesDirOf env) = [baseNameOr en.name "mod.vpk"] := by
  have hfind : (pre ++ en :: post).find?
      (fun e => !e.dir && isVpkName e.name) = some en := by
    refine find?_first_match _ pre en post ?_ ?_
    · intro y hy
      rcases hpre y hy with h | h <;> simp [h]
    · simp [hen, henVpk]
  have hfp := zipName_ne_previewName meta f.name hzip
  have hfp' := previewName_ne_zipName meta f.name hzip
  have hfm := zipName_ne_metadataJson f.name hzip
  have hfm' := (zipName_ne_metadataJson f.name hzip).symm
  by_cases hb : isVpkName (baseNameOr en.name "mod.vpk") = true
  · have hrun : finalize env meta category sourceType
        (some (DetectedSource.archive f)) St.init =
      FinResult.ok
        { fs := { dirs := [filesDirOf env, modDirOf env, modsRootOf env],
                  files := [(modDirOf env ++ ["metadata.json"],
                             Content.metaDoc (buildMetadata ("local-" ++ env.uuid)
                               meta category env.nowISO (previewNameOf meta))),
                            (filesDirOf env ++ [baseNameOr en.name "mod.vpk"],
                             Content.bytes en.data),
                            (modDirOf env ++ [previewNameOf meta],
                             previewContentOf meta)] },
          toasts := ["Added: " ++ meta.name] } := by
      simp [finalize, hsrc, ensureDir, St.init, hmk, hw, Res.andThen,
        writePreview_ok env meta, stagePayload, hzip, hparse, hfind,
        writeBytes, writeMeta, catchPayload, postArchiveCheck, childNames,
        FS.setFile, addToast, hb, hfp, hfp', hfm, hfm',
        modDirOf_ne_modsRootOf, filesDirOf_ne_modDirOf, modDirOf_ne_filesDirOf,
        filesDirOf_ne_modsRootOf, filesDir_file_ne_modDir_file,
        modDir_file_ne_filesDir_file, modDir_file_dropLast,
        filesDir_file_dropLast, modDir_file_getLastD, filesDir_file_getLastD,
        previewName_ne_metadataJson, metadataJson_ne_previewName, buildMetadata]
    rw [hrun]
    refine ⟨rfl, ?_, ?_⟩
    · simp [FinResult.st, lookupFile, List.find?,
        filesDir_file_ne_modDir_file, modDir_file_ne_filesDir_file,
        modDirOf_ne_filesDirOf, filesDirOf_ne_modDirOf]
    · simp [FinResult.st, childNames, modDir_file_dropLast,
        filesDir_file_dropLast, filesDir_file_getLastD,
        modDirOf_ne_filesDirOf, filesDirOf_ne_modDirOf]
  · have hb' : isVpkName (baseNameOr en.name "mod.vpk") = false := by
      simpa using hb
    have hrun : finalize env meta category sourceType
        (some (DetectedSource.archive f)) St.init =
      FinResult.ok
        { fs := { dirs := [filesDirOf env, modDirOf env, modsRootOf env],
                  files := [(modDirOf env ++ ["metadata.json"],
                             Content.metaDoc (buildMetadata ("local-" ++ env.uuid)
                               meta category env.nowISO (previewNameOf meta))),
                            (modDirOf env ++ [f.name], Content.bytes f.bytes),
                            (filesDirOf env ++ [baseNameOr en.name "mod.vpk"],
                             Content.bytes en.data),
                            (modDirOf env ++ [previewNameOf meta],
                             previewContentOf meta)] },
          toasts := ["Added: " ++ meta.name] } := by
      simp [finalize, hsrc, ensureDir, St.init, hmk, hw, Res.andThen,
        writePreview_ok env meta, stagePayload, hzip, hparse, hfind,
        writeBytes, writeMeta, catchPayload, postArchiveCheck, childNames,
        FS.setFile, addToast, hb', hfp, hfp', hfm, hfm',
        modDirOf_ne_modsRootOf, filesDirOf_ne_modDirOf, modDirOf_ne_filesDirOf,
        filesDirOf_ne_modsRootOf, filesDir_file_ne_modDir_file,
        modDir_file_ne_filesDir_file, modDir_file_dropLast,
        filesDir_file_dropLast, modDir_file_getLastD, filesDir_file_getLastD,
        previewName_ne_metadataJson, metadataJson_ne_previewName, buildMetadata]
    rw [hrun]
    refine ⟨rfl, ?_, ?_⟩
    · simp [FinResult.st, lookupFile, List.find?,
        filesDir_file_ne_modDir_file, modDir_file_ne_filesDir_file,
        modDirOf_ne_filesDirOf, filesDirOf_ne_modDirOf]
    · simp [FinResult.st, childNames, modDir_file_dropLast,
        filesDir_file_dropLast, filesDir_file_getLastD,
        modDirOf_ne_filesDirOf, filesDirOf_ne_modDirOf]

def envZipMulti : IOEnv :=
  mkEnv (fun _ => false)
    (fun b => if b = [30] then
        some { entries := [⟨"dir.vpk", true, [0]⟩,
                           ⟨"x/first.vpk", false, [1]⟩,
                           ⟨"second.vpk", false, [2]⟩] }
      else none)

theorem c10_witness :
    (finalize envZipMulti metaPlain "Skins" SourceType.archive
        (some (DetectedSource.archive ⟨"multi.zip", "", [30]⟩)) St.init).isOk = true ∧
    lookupFile (finalize envZipMulti metaPlain "Skins" SourceType.archive
        (some (DetectedSource.archive ⟨"multi.zip", "", [30]⟩)) St.init).st.fs
      (filesDirOf envZipMulti ++ [baseNameOr "x/first.vpk" "mod.vpk"]) =
      some (Content.bytes [1]) ∧
    childNames (finalize envZipMulti metaPlain "Skins" SourceType.archive
        (some (DetectedSource.archive ⟨"multi.zip", "", [30]⟩)) St.init).st.fs
      (filesDirOf envZipMulti) = [baseNameOr "x/first.vpk" "mod.vpk"] := by
  have h := c10_zip_first_match_only envZipMulti metaPlain "Skins"
    SourceType.archive ⟨"multi.zip", "", [30]⟩
    [⟨"dir.vpk", true, [0]⟩] [⟨"second.vpk", false, [2]⟩]
    ⟨"x/first.vpk", false, [1]⟩
    (by decide) (by decide) (by decide) (by decide) (by decide) (by decide)
    (fun p => rfl) (fun p => rfl)
  exact h

/-! ## Claim C9 -/

theorem lookupFile_setFile_self (fs : FS) (p : FsPath) (c : Content) :
    lookupFile (fs.setFile p c) p = some c := by
  simp [lookupFile, FS.setFile, List.find?]

theorem writePreview_name (env : IOEnv) (meta : ModMetadata) (modDir : FsPath)
    (st : St) (pn : String) (st' : St)
    (h : writePreview env meta modDir st = Res.ok pn st') :
    pn = previewNameOf meta := by
  unfold writePreview at h
  rcases him : meta.imageFile with _ | img
  · simp only [him] at h
    rcases hW : writeText env st (modDir ++ [previewNameOf meta]) fallbackSvg
      with ⟨a, s⟩ | ⟨c, s⟩ <;> rw [hW] at h
    · exact ((Res.ok.inj h).1).symm
    · cases h
  · simp only [him] at h
    rcases hW : writeBytes env st (modDir ++ [previewNameOf meta]) img.data
      with ⟨a, s⟩ | ⟨c, s⟩ <;> rw [hW] at h
    · exact ((Res.ok.inj h).1).symm
    · cases h

theorem writeMeta_result (env : IOEnv) (st : St) (p : FsPath) (m : MetadataDoc)
    (a : Unit) (st' : St)
    (h : writeMeta env st p m = Res.ok a st') :
    st' = { st with fs := st.fs.setFile p (Content.metaDoc m) } := by
  unfold writeMeta at h
  split at h
  · cases h
  · cases h
    rfl

/-- Every successful staging run has written the metadata document the
stager assembled, as `metadata.json` in the mod root. -/
theorem finalize_ok_metadata (env : IOEnv) (meta : ModMetadata)
    (category : String) (sourceType : SourceType) (det : DetectedSource)
    (st0 stR : St)
    (hrun : finalize env meta category sourceType (some det) st0 = FinResult.ok stR) :
    lookupFile stR.fs (modDirOf env ++ ["metadata.json"]) =
      some (Content.metaDoc (buildMetadata ("local-" ++ env.uuid) meta category
        env.nowISO (previewNameOf meta))) := by
  by_cases hsrcT : sourceType = SourceType.url
  · rw [finalize, if_pos hsrcT] at hrun
    exact absurd hrun (by simp)
  · rw [finalize, if_neg hsrcT] at hrun
    rcases h1 : ensureDir env st0 (modsRootOf env) with ⟨a1, st1⟩ | ⟨c1, s1⟩ <;>
      rw [h1] at hrun <;> simp only [Res.andThen] at hrun <;> try exact absurd hrun (by simp)
    rcases h2 : ensureDir env st1 (modDirOf env) with ⟨a2, st2⟩ | ⟨c2, s2⟩ <;>
      rw [h2] at hrun <;> simp only [Res.andThen] at hrun <;> try exact absurd hrun (by simp)
    rcases h3 : ensureDir env st2 (filesDirOf env) with ⟨a3, st3⟩ | ⟨c3, s3⟩ <;>
      rw [h3] at hrun <;> simp only [Res.andThen] at hrun <;> try exact absurd hrun (by simp)
    rcases h4 : writePreview env meta (modDirOf env) st3 with ⟨pn, st4⟩ | ⟨c4, s4⟩ <;>
      rw [h4] at hrun <;> simp only [Res.andThen] at hrun <;> try exact absurd hrun (by simp)
    rcases h5 : catchPayload env det (modDirOf env) (filesDirOf env) st4
      with ⟨a5, st5⟩ | ⟨c5, s5⟩ <;>
      rw [h5] at hrun <;> simp only [Res.andThen] at hrun <;> try exact absurd hrun (by simp)
    rcases h6 : postArchiveCheck env det (modDirOf env) (filesDirOf env) st5
      with ⟨a6, st6⟩ | ⟨c6, s6⟩ <;>
      rw [h6] at hrun <;> simp only [Res.andThen] at hrun <;> try exact absurd hrun (by simp)
    rcases h7 : writeMeta env st6 (modDirOf env ++ ["metadata.json"])
        (buildMetadata ("local-" ++ env.uuid) meta category env.nowISO pn)
      with ⟨a7, st7⟩ | ⟨c7, s7⟩ <;>
      rw [h7] at hrun <;> simp only [Res.andThen] at hrun
    · have hpn := writePreview_name _ _ _ _ _ _ h4
      subst hpn
      have hst7 := writeMeta_result _ _ _ _ _ _ h7
      subst hst7
      have hR : stR = addToast { st6 with
          fs := st6.fs.setFile (modDirOf env ++ ["metadata.json"])
            (Content.metaDoc (buildMetadata ("local-" ++ env.uuid) meta category
              env.nowISO (previewNameOf meta))) }
          ("Added: " ++ meta.name) := (FinResult.ok.inj hrun).symm
      subst hR
      simp [addToast, lookupFile_setFile_self]
    · exact absurd hrun (by simp)

/-- Claim C9: on every successful staging run the metadata document
written as `metadata.json` in the mod root holds exactly the fields
`id`, `kind:"local"`, `name`, `author`, `link`, `description`,
`category`, `createdAt` (the host clock's ISO-8601 reading), `preview`
(the settled preview file name) and `_schema = 1`; its `name` is the
supplied form name trimmed, and its `author` falls back to `"Unknown"`
when no author survived trimming. -/
theorem c9_metadata_document (env : IOEnv) (v : FormValues)
    (meta : ModMetadata) (category : String) (sourceType : SourceType)
    (det : DetectedSource) (st0 stR : St)
    (hv : validateAndGet true v = some meta)
    (hrun : finalize env meta category sourceType (some det) st0 =
      FinResult.ok stR) :
    lookupFile stR.fs (modDirOf env ++ ["metadata.json"]) =
      some (Content.metaDoc
        { id := "local-" ++ env.uuid
          kind := "local"
          name := trimStr v.name
          author := strOr (trimOpt v.author) "Unknown"
          link := strOrNull (trimOpt v.link)
          description := strOrNull (trimOpt v.description)
          category := category
          createdAt := env.nowISO
          preview := previewNameOf meta
          schemaVer := 1 }) ∧
    (trimOpt v.author = none →
      strOr (trimOpt v.author) "Unknown" = "Unknown") := by
  have hmeta : meta =
      { name := trimStr v.name, author := trimOpt v.author,
        description := trimOpt v.description, link := trimOpt v.link,
        imageFile := v.imageFile } := by
    simp [validateAndGet] at hv
    exact hv.symm
  subst hmeta
  constructor
  · have h := finalize_ok_metadata env _ category sourceType det st0 stR hrun
    simpa [buildMetadata] using h
  · intro h
    simp [strOr, h]

set_option maxRecDepth 4000 in
theorem c9_witness :
    lookupFile ((finalize envAllOk metaPlain "Skins" SourceType.vpk
        (some (DetectedSource.vpk ⟨"SkinPack.vpk", "", [7]⟩)) St.init).st).fs
      (modDirOf envAllOk ++ ["metadata.json"]) =
      some (Content.metaDoc
        { id := "local-" ++ envAllOk.uuid
          kind := "local"
          name := trimStr "  Red Armor  "
          author := strOr (trimOpt (some "  ")) "Unknown"
          link := strOrNull (trimOpt (some ""))
          description := strOrNull (trimOpt (some ""))
          category := "Skins"
          createdAt := envAllOk.nowISO
          preview := previewNameOf metaPlain
          schemaVer := 1 }) ∧
    (trimOpt (some "  ") = none →
      strOr (trimOpt (some "  ")) "Unknown" = "Unknown") :=
  c9_metadata_document envAllOk
    ⟨"  Red Armor  ", some "  ", some "", some "", none⟩ metaPlain
    "Skins" SourceType.vpk (DetectedSource.vpk ⟨"SkinPack.vpk", "", [7]⟩)
    St.init
    ((finalize envAllOk metaPlain "Skins" SourceType.vpk
        (some (DetectedSource.vpk ⟨"SkinPack.vpk", "", [7]⟩)) St.init).st)
    (by decide) (by decide)
